import Mathlib

/-!
Shallow embedding of the "Flags of the World" memory game core
(`src/js/game.js`, `src/js/scores-display.js`, and the score service module)
together with theorems checking the specification's testable properties.

Conventions used throughout:
* JS arrays become `List`, JS objects used as ordered string-keyed maps become
  association lists `List (String × _)` (iteration order = insertion order).
* `Math.random()`-driven choices are modelled by an explicit stream
  `r : Nat → Nat`; the JS expression `Math.floor(Math.random() * (i + 1))`
  (a uniformly chosen index in `[0, i]`) becomes `r i % (i + 1)`.
* `localStorage` (string keys to JSON-serialised score lists) is modelled as a
  total function from keys to score lists, with the empty list standing for an
  absent key (the source reads `JSON.parse(localStorage.getItem(k)) || []`).
* Code that throws a runtime error is modelled with `Option` (`none` = throw).
-/

namespace FlagsGame

/-- A flag entry of the per-continent data files `dist/flags_<continent>.json`:
an object `{country, flag}` with the country display name and the flag SVG
markup. -/
structure Flag where
  country : String
  flag : String
deriving DecidableEq, Repr

/-- A continent's flag data file: an ordered mapping from region key to the
region's list of flags. -/
abbrev FlagsData := List (String × List Flag)

/-- `Object.values(flags).flat()`: every flag of the continent in file order. -/
def allFlags (data : FlagsData) : List Flag :=
  (data.map Prod.snd).flatten

/-- `FlagsofWorld.getFlags` (game.js:190-214): the region's flags, or the union
of all regions when the selected region is `"all"`; a missing region key yields
`[]` (`flags[this.region] || []`). -/
def getFlags (data : FlagsData) (region : String) : List Flag :=
  if region = "all" then allFlags data
  else (data.lookup region).getD []

/-- The JS destructuring swap `[a[i], a[j]] = [a[j], a[i]]` on a list; an
out-of-range index leaves the list unchanged (unreachable in the source, where
both indices are below the length). -/
def swapAt (l : List α) (i j : Nat) : List α :=
  match l[i]?, l[j]? with
  | some a, some b => (l.set i b).set j a
  | _, _ => l

/-- The loop of `FlagsofWorld.shuffleArray` (game.js:358-365): Fisher–Yates,
visiting indices `i, i-1, ..., 1` and swapping index `i` with a chosen index
`r i % (i + 1) ∈ [0, i]`. -/
def fisherYates (r : Nat → Nat) : Nat → List α → List α
  | 0, l => l
  | i + 1, l => fisherYates r i (swapAt l (i + 1) (r (i + 1) % (i + 2)))

/-- `FlagsofWorld.shuffleArray` (game.js:358-365). -/
def shuffleArray (r : Nat → Nat) (l : List α) : List α :=
  fisherYates r (l.length - 1) l

/-- The three game difficulties offered by the difficulty selector. -/
inductive Difficulty
  | easy
  | medium
  | hard
deriving DecidableEq, Repr

/-- Board dimensions and pair count per difficulty. -/
structure DifficultySettings where
  rows : Nat
  cols : Nat
  pairs : Nat
deriving DecidableEq, Repr

/-- `FlagsofWorld.getDifficultySettings` (game.js:220-227). -/
def getDifficultySettings : Difficulty → DifficultySettings
  | .easy => ⟨3, 4, 6⟩
  | .medium => ⟨4, 4, 8⟩
  | .hard => ⟨5, 4, 10⟩

/-- The flags collected by the loop of
`FlagsofWorld.getAdditionalFlagsFromContinent` (game.js:337-342): all flags of
every region whose key differs from the selected region, in file order. -/
def otherRegionFlags (data : FlagsData) (region : String) : List Flag :=
  ((data.filter (fun p => p.1 != region)).map Prod.snd).flatten

/-- `FlagsofWorld.getAdditionalFlagsFromContinent` (game.js:318-351): shuffle
the other regions' flags and take the requested number. -/
def getAdditionalFlagsFromContinent (r : Nat → Nat) (data : FlagsData)
    (region : String) (neededCount : Nat) : List Flag :=
  (shuffleArray r (otherRegionFlags data region)).take neededCount

/-- Result of `FlagsofWorld.generateCards`: the shuffled card deck (each card
carries its flag) and whether the region-mix notice was shown
(`showRegionMixNotification`). -/
structure GenResult where
  deck : List Flag
  notified : Bool
deriving DecidableEq, Repr

/-- `FlagsofWorld.generateCards` (game.js:234-260). `rA` drives the shuffle
inside `getAdditionalFlagsFromContinent`, `rB` the shuffle of the available
flags, `rC` the final deck shuffle. The card-pair loop runs for
`i < pairs && i < flagsToUse.length`; since `flagsToUse` has at most `pairs`
entries it duplicates every entry of `flagsToUse`. -/
def generateCards (rA rB rC : Nat → Nat) (data : FlagsData) (region : String)
    (difficulty : Difficulty) : GenResult :=
  let pairs := (getDifficultySettings difficulty).pairs
  let availableFlags0 := getFlags data region
  let availableFlags1 :=
    if availableFlags0.length < pairs then
      availableFlags0 ++
        getAdditionalFlagsFromContinent rA data region (pairs * 2 - availableFlags0.length)
    else availableFlags0
  let availableFlags2 := shuffleArray rB availableFlags1
  let flagsToUse := availableFlags2.take pairs
  let cardPairs := flagsToUse.flatMap (fun f => [f, f])
  { deck := shuffleArray rC cardPairs
    notified := decide (availableFlags0.length < pairs) }

/-- Transient UI state of a rendered card element: the `flipped` and `matched`
CSS classes. -/
structure CardUI where
  flipped : Bool
  matched : Bool
deriving DecidableEq, Repr

/-- An entry of `this.flippedCards` (game.js:426): the flipped card's country
and its board index (the index stands for the DOM element). -/
structure FlippedEntry where
  country : String
  index : Nat
deriving DecidableEq, Repr

/-- The session state of a `FlagsofWorld` instance. `wonCount` counts the
invocations of `gameWon` (game.js:484-493), each of which stops the clock and
opens the score-submission modal. -/
structure GameState where
  cards : List Flag
  ui : List CardUI
  flippedCards : List FlippedEntry
  matchedPairs : Nat
  moves : Nat
  gameStarted : Bool
  timerRunning : Bool
  wonCount : Nat
  difficulty : Difficulty
deriving DecidableEq, Repr

/-- A freshly rendered board: every card face-down and unmatched. -/
def freshUI (n : Nat) : List CardUI :=
  List.replicate n ⟨false, false⟩

/-- State after the constructor's reset and `renderGameBoard` for a deck. -/
def initState (deck : List Flag) (d : Difficulty) : GameState :=
  { cards := deck, ui := freshUI deck.length, flippedCards := [], matchedPairs := 0,
    moves := 0, gameStarted := false, timerRunning := false, wonCount := 0,
    difficulty := d }

/-- `FlagsofWorld.flipCard` (game.js:413-434). An index outside the board is a
no-op (clicks only arrive from rendered cards). The scheduled
`setTimeout(() => this.checkMatch(), 1000)` is modelled by the `Step.check`
scheduler step. -/
def flipCard (s : GameState) (i : Nat) : GameState :=
  match s.ui[i]?, s.cards[i]? with
  | some u, some c =>
    if 2 ≤ s.flippedCards.length ∨ u.flipped ∨ u.matched then s
    else
      let s1 := if s.gameStarted then s else
        { s with timerRunning := true, gameStarted := true }
      let s2 := { s1 with
        ui := s1.ui.set i { u with flipped := true }
        flippedCards := s1.flippedCards ++ [⟨c.country, i⟩] }
      if s2.flippedCards.length = 2 then { s2 with moves := s2.moves + 1 } else s2
  | _, _ => s

/-- Adding the `matched` class to the card element at index `i`. -/
def setMatched (ui : List CardUI) (i : Nat) : List CardUI :=
  match ui[i]? with
  | some u => ui.set i { u with matched := true }
  | none => ui

/-- Removing the `flipped` class from the card element at index `i`. -/
def setUnflipped (ui : List CardUI) (i : Nat) : List CardUI :=
  match ui[i]? with
  | some u => ui.set i { u with flipped := false }
  | none => ui

/-- `FlagsofWorld.checkMatch` (game.js:439-456). With fewer than two pending
cards the destructuring `[card1, card2] = this.flippedCards` yields
`undefined` and `card1.country` throws a TypeError (`none`). A match keeps the
`flipped` class and adds `matched` to both elements, and at exactly the
difficulty's nominal pair count invokes `gameWon` (game.js:484-493), which
stops the timer and opens the score modal. A mismatch removes `flipped` from
both. The pending list is cleared in both cases. -/
def checkMatch (s : GameState) : Option GameState :=
  match s.flippedCards with
  | c1 :: c2 :: _ =>
    if c1.country = c2.country then
      let mp := s.matchedPairs + 1
      let won := mp = (getDifficultySettings s.difficulty).pairs
      some { s with
        ui := setMatched (setMatched s.ui c1.index) c2.index
        matchedPairs := mp
        wonCount := if won then s.wonCount + 1 else s.wonCount
        timerRunning := if won then false else s.timerRunning
        flippedCards := [] }
    else
      some { s with
        ui := setUnflipped (setUnflipped s.ui c1.index) c2.index
        flippedCards := [] }
  | _ => none

/-- `FlagsofWorld.resetGame` (game.js:548-559): stop the timer and clear the
session counters and pending list. It does not cancel or invalidate any
scheduled `setTimeout` match check. -/
def resetGame (s : GameState) : GameState :=
  { s with
    timerRunning := false
    flippedCards := []
    matchedPairs := 0
    moves := 0
    gameStarted := false }

/-- `FlagsofWorld.createGameBoard` (game.js:370-373) together with
`renderGameBoard`: install a generated deck and render a fresh board. -/
def createGameBoard (s : GameState) (deck : List Flag) : GameState :=
  { s with cards := deck, ui := freshUI deck.length }

/-- `FlagsofWorld.startNewGame` (game.js:564-567), with `deck` the deck that
the board regeneration produced. -/
def startNewGame (s : GameState) (deck : List Flag) : GameState :=
  createGameBoard (resetGame s) deck

/-- `FlagsofWorld.restartGame` (game.js:572-576): reset, reshuffle
`this.cards` — and then `await this.createGameBoard()`, which overwrites
`this.cards` with `await this.generateCards()` on freshly fetched data. -/
def restartGame (rS rA rB rC : Nat → Nat) (data : FlagsData) (region : String)
    (s : GameState) : GameState :=
  let s1 := resetGame s
  let s2 := { s1 with cards := shuffleArray rS s1.cards }
  createGameBoard s2 (generateCards rA rB rC data region s2.difficulty).deck

/-- One step of the single-threaded event loop: a click on card `i`, or the
firing of a scheduled delayed match check. -/
inductive Step : GameState → GameState → Prop
  | flip (s : GameState) (i : Nat) : Step s (flipCard s i)
  | check (s s' : GameState) (h : checkMatch s = some s') : Step s s'

/-- States reachable within one session started on a given deck. -/
inductive Reachable (deck : List Flag) (d : Difficulty) : GameState → Prop
  | init : Reachable deck d (initState deck d)
  | step {s s' : GameState} : Reachable deck d s → Step s s' → Reachable deck d s'

/-- Whether the card element at index `i` of a board carries the `matched`
class. -/
def uiMatchedAt (ui : List CardUI) (i : Nat) : Bool :=
  match ui[i]? with
  | some u => u.matched
  | none => false

/-- Whether the card element at index `i` of a board carries the `flipped`
class. -/
def uiFlippedAt (ui : List CardUI) (i : Nat) : Bool :=
  match ui[i]? with
  | some u => u.flipped
  | none => false

/-- Whether the card element at index `i` carries the `matched` class. -/
def matchedAt (s : GameState) (i : Nat) : Bool :=
  uiMatchedAt s.ui i

/-- Whether the card element at index `i` carries the `flipped` class. -/
def flippedAt (s : GameState) (i : Nat) : Bool :=
  uiFlippedAt s.ui i

/-- The number of card elements carrying the `matched` class. -/
def countMatched (ui : List CardUI) : Nat :=
  ui.countP (fun u => u.matched)

/-- The session invariant maintained by every scheduler step (proved below):
the UI list mirrors the deck, at most two cards are pending, every pending
entry points at a distinct face-up unmatched card, matched cards and
`matchedPairs` stay in sync, `gameWon` has run exactly once iff the nominal
pair target has been reached, the timer is stopped after a win, and a pending
card implies the session has started. -/
structure Inv (s : GameState) : Prop where
  ui_len : s.ui.length = s.cards.length
  pend_le : s.flippedCards.length ≤ 2
  pend_ok : ∀ e ∈ s.flippedCards, ∃ u, s.ui[e.index]? = some u
    ∧ u.flipped = true ∧ u.matched = false
  pend_nodup : (s.flippedCards.map FlippedEntry.index).Nodup
  matched_two : countMatched s.ui = 2 * s.matchedPairs
  won_eq : s.wonCount
    = if (getDifficultySettings s.difficulty).pairs ≤ s.matchedPairs then 1 else 0
  won_timer : s.wonCount = 1 → s.timerRunning = false ∧ s.gameStarted = true
  pend_started : s.flippedCards ≠ [] → s.gameStarted = true

/-- A score record as stored by `FlagsofWorld.saveScore` (game.js:528-543). -/
structure StoredScore where
  name : String
  moves : Nat
  time : String
  difficulty : String
  region : String
  playerCountry : String
deriving DecidableEq, Repr

/-- `localStorage` restricted to the score lists: a total map from key to the
parsed list, `[]` standing for an absent key. -/
def LocalStore : Type := String → List StoredScore

/-- `localStorage.setItem` for a score list. -/
def setItem (store : LocalStore) (k : String) (v : List StoredScore) : LocalStore :=
  fun k' => if k' = k then v else store k'

/-- The sort comparator of game.js:540,
`a.moves - b.moves || a.time.localeCompare(b.time)`, as a `≤`-style test:
ascending by moves, ties broken by the time string (`localeCompare` modelled
as lexicographic string order). -/
def scoreLE (a b : StoredScore) : Bool :=
  decide (a.moves < b.moves) || (a.moves == b.moves && decide (a.time ≤ b.time))

namespace FlagsofWorld

/-- `FlagsofWorld.saveScore` (game.js:528-543): build the record (with the
composite `"<continent> - <region>"` region field), append it to the list
under the flat `highScores` key, sort by (moves, time) and keep the top ten
(`highScores.splice(10)`). -/
def saveScore (store : LocalStore) (continent : String) (name : String)
    (moves : Nat) (time : String) (difficulty : String) (region : String)
    (playerCountry : String) : LocalStore :=
  let newScore : StoredScore :=
    ⟨name, moves, time, difficulty, continent ++ " - " ++ region, playerCountry⟩
  let highScores := store "highScores"
  let sorted := (highScores ++ [newScore]).mergeSort scoreLE
  setItem store "highScores" (sorted.take 10)

end FlagsofWorld

/-- `loadLocalScoresForContinent` (scores-display.js:426-446): the continent
tab of the scores page reads the list stored under `highScores_<continent>`. -/
def loadLocalScoresForContinent (store : LocalStore) (continent : String) :
    List StoredScore :=
  store ("highScores_" ++ continent)

/-- Outcome of the remote `scores` insert attempted by
`ScoreService.saveScore`. -/
inductive RemoteOutcome
  | ok
  | err (msg : String)
deriving DecidableEq, Repr

/-- The environment `ScoreService.saveScore` consults: whether the Supabase
client is initialised, the authenticated user (if any), and what the remote
insert does when attempted. -/
structure ScoreEnv where
  supabaseInitialized : Bool
  currentUserId : Option String
  remote : RemoteOutcome
deriving Repr

/-- The record handed to `ScoreService.saveScore`. -/
structure ScoreData where
  name : String
  moves : Nat
  time : String
  difficulty : String
  region : String
  player_country : String
  continent : String
deriving DecidableEq, Repr

/-- What a call to `ScoreService.saveScore` produces: `ok none` is the early
`return null` (Supabase not initialised), `ok (some _)` a successful insert,
`err` a thrown error. -/
inductive SaveResult
  | ok (saved : Option ScoreData)
  | err (msg : String)
deriving DecidableEq, Repr

namespace ScoreService

/-- `ScoreService.saveScore` (score-service module, lines 404-449): returns
null when Supabase is missing, throws when unauthenticated, inserts remotely
and rethrows any insert error. The local-storage map is threaded through
unchanged to record that no path of this function writes to it (the only
side effect besides the insert is an in-memory cache invalidation). -/
def saveScore (env : ScoreEnv) (sd : ScoreData) (store : LocalStore) :
    SaveResult × LocalStore :=
  if env.supabaseInitialized = false then (SaveResult.ok none, store)
  else
    match env.currentUserId with
    | none =>
      (SaveResult.err "User must be authenticated to save score to global leaderboard",
        store)
    | some _ =>
      match env.remote with
      | RemoteOutcome.ok => (SaveResult.ok (some sd), store)
      | RemoteOutcome.err m => (SaveResult.err m, store)

end ScoreService

/-- Shorthand for a concrete test flag. -/
def tf (s : String) : Flag := ⟨s, s⟩

/-- A one-region continent with two flags: fewer than every difficulty's pair
count. -/
def dataSmall : FlagsData := [("r", [tf "A", tf "B"])]

/-- A two-region continent with seven flags in total: region `r1` is short of
the easy pair count, the continent is not. -/
def dataW : FlagsData :=
  [("r1", [tf "A", tf "B", tf "C"]), ("r2", [tf "D", tf "E", tf "F", tf "G"])]

/-- A one-region continent with seven flags: more than the easy pair count, so
different random draws select different six-flag subsets. -/
def data7 : FlagsData :=
  [("r", [tf "F1", tf "F2", tf "F3", tf "F4", tf "F5", tf "F6", tf "F7"])]

/-- A two-card session (a single pair) with the first card flipped. -/
def sW : GameState := flipCard (initState [tf "A", tf "A"] Difficulty.easy) 0

/-- The same session with both cards flipped (two pending cards). -/
def sW2 : GameState := flipCard sW 1

/-- The same session after the delayed match check has fired. -/
def tW : GameState := (checkMatch sW2).getD sW2

/-- Session one of the stale-callback interleaving: two cards flipped, so a
delayed match check is scheduled. -/
def c10Session1 : GameState :=
  flipCard (flipCard (initState [tf "A", tf "A"] Difficulty.easy) 0) 1

/-- A new game is started on a fresh four-card deck before that delay fires. -/
def c10NewGame : GameState :=
  startNewGame c10Session1 [tf "A", tf "B", tf "A", tf "B"]

/-- Two cards of the new session are flipped while the stale delay is still
pending. -/
def c10AfterFlips : GameState := flipCard (flipCard c10NewGame 0) 2

/-- An empty `localStorage`. -/
def emptyStore : LocalStore := fun _ => []

/-- Moving the element at index `k` to the front, after writing `x` at `k`,
permutes a cons of `x`: the key step of the swap-permutation argument. -/
theorem cons_set_perm (t : List α) :
    ∀ (k : Nat) (x : α) (h : k < t.length), List.Perm (t[k] :: t.set k x) (x :: t) := by
  induction t with
  | nil => intro k x h; simp at h
  | cons c t ih =>
    intro k x h
    cases k with
    | zero =>
      simpa using List.Perm.swap x c t
    | succ k =>
      have hk : k < t.length := by simpa using h
      simp only [List.getElem_cons_succ, List.set_cons_succ]
      have h1 : List.Perm (t[k] :: c :: t.set k x) (c :: t[k] :: t.set k x) :=
        List.Perm.swap c (t[k]) (t.set k x)
      have h2 : List.Perm (c :: t[k] :: t.set k x) (c :: (x :: t)) :=
        (ih k x hk).cons c
      have h3 : List.Perm (c :: x :: t) (x :: c :: t) := List.Perm.swap x c t
      exact h1.trans (h2.trans h3)

/-- Writing the two entries of a list back at swapped positions is a
permutation. -/
theorem set_set_swap_perm (l : List α) :
    ∀ (i j : Nat) (hi : i < l.length) (hj : j < l.length),
      List.Perm ((l.set i l[j]).set j l[i]) l := by
  induction l with
  | nil => intro i j hi hj; simp at hi
  | cons c t ih =>
    intro i j hi hj
    cases i with
    | zero =>
      cases j with
      | zero => simp
      | succ k =>
        have hk : k < t.length := by simpa using hj
        simpa using cons_set_perm t k c hk
    | succ m =>
      cases j with
      | zero =>
        have hm : m < t.length := by simpa using hi
        simpa using cons_set_perm t m c hm
      | succ k =>
        have hm : m < t.length := by simpa using hi
        have hk : k < t.length := by simpa using hj
        simpa using (ih m k hm hk).cons c

/-- A swap is a permutation. -/
theorem swapAt_perm (l : List α) (i j : Nat) : List.Perm (swapAt l i j) l := by
  unfold swapAt
  cases hi : l[i]? with
  | none => exact List.Perm.refl l
  | some a =>
    cases hj : l[j]? with
    | none => exact List.Perm.refl l
    | some b =>
      have hi' : i < l.length := by
        by_contra hcon
        simp [List.getElem?_eq_none (Nat.le_of_not_lt hcon)] at hi
      have hj' : j < l.length := by
        by_contra hcon
        simp [List.getElem?_eq_none (Nat.le_of_not_lt hcon)] at hj
      have ha : a = l[i] := by
        have := List.getElem?_eq_getElem hi'
        rw [this] at hi; exact (Option.some.inj hi).symm
      have hb : b = l[j] := by
        have := List.getElem?_eq_getElem hj'
        rw [this] at hj; exact (Option.some.inj hj).symm
      subst ha hb
      exact set_set_swap_perm l i j hi' hj'

/-- The Fisher–Yates loop is a permutation. -/
theorem fisherYates_perm (r : Nat → Nat) (n : Nat) (l : List α) :
    List.Perm (fisherYates r n l) l := by
  induction n generalizing l with
  | zero => exact List.Perm.refl l
  | succ i ih =>
    exact (ih _).trans (swapAt_perm l (i + 1) (r (i + 1) % (i + 2)))

/-- `shuffleArray` returns a permutation of its input. -/
theorem shuffleArray_perm (r : Nat → Nat) (l : List α) :
    List.Perm (shuffleArray r l) l :=
  fisherYates_perm r (l.length - 1) l

/-- Counting in the duplicated card list: every flag occurs twice as often as
in the selected flag list. -/
theorem count_flatMap_pair (l : List Flag) (x : Flag) :
    (l.flatMap fun f => [f, f]).count x = 2 * l.count x := by
  induction l with
  | nil => simp
  | cons c t ih =>
    simp only [List.flatMap_cons, List.cons_append, List.nil_append,
      List.count_cons, ih]
    by_cases h : c = x
    · simp [h]; omega
    · simp [h]

/-- The duplicated card list is twice as long as the selected flag list. -/
theorem length_flatMap_pair (l : List Flag) :
    (l.flatMap fun f => [f, f]).length = 2 * l.length := by
  induction l with
  | nil => simp
  | cons c t ih => simp [List.flatMap_cons, ih]; omega

/-- When the selected region is not a key of the data, the "other regions"
collection is the whole continent. -/
theorem otherRegionFlags_of_not_mem (data : FlagsData) (region : String)
    (h : region ∉ data.map Prod.fst) : otherRegionFlags data region = allFlags data := by
  unfold otherRegionFlags allFlags
  congr 1
  congr 1
  apply List.filter_eq_self.mpr
  intro p hp
  have : p.1 ≠ region := by
    intro he
    exact h (he ▸ List.mem_map_of_mem Prod.fst hp)
  simpa using this

/-- With distinct region keys, the selected region's flags together with the
other regions' flags are a permutation of the whole continent's flags. -/
theorem lookup_append_other_perm (data : FlagsData) (region : String)
    (hkeys : (data.map Prod.fst).Nodup) :
    List.Perm (((data.lookup region).getD []) ++ otherRegionFlags data region)
      (allFlags data) := by
  induction data with
  | nil => simp [otherRegionFlags, allFlags]
  | cons e rest ih =>
    obtain ⟨k, fl⟩ := e
    simp only [List.map_cons, List.nodup_cons] at hkeys
    obtain ⟨hknotin, hrest⟩ := hkeys
    by_cases hk : k = region
    · subst hk
      have hlk : List.lookup k ((k, fl) :: rest) = some fl := by
        simp [List.lookup]
      have hfilter : otherRegionFlags ((k, fl) :: rest) k = otherRegionFlags rest k := by
        simp [otherRegionFlags, List.filter_cons]
      rw [hlk, hfilter, otherRegionFlags_of_not_mem rest k hknotin]
      simp only [Option.getD_some]
      have : allFlags ((k, fl) :: rest) = fl ++ allFlags rest := by
        simp [allFlags]
      rw [this]
    · have hlk : List.lookup region ((k, fl) :: rest) = List.lookup region rest := by
        simp only [List.lookup]
        have hne : (region == k) = false := by
          simpa using fun he => hk he.symm
        simp [hne]
      have hfilter : otherRegionFlags ((k, fl) :: rest) region
          = fl ++ otherRegionFlags rest region := by
        simp only [otherRegionFlags, List.filter_cons]
        have : (k != region) = true := by simpa using hk
        simp [this]
      have hall : allFlags ((k, fl) :: rest) = fl ++ allFlags rest := by
        simp [allFlags]
      rw [hlk, hfilter, hall]
      have step1 : List.Perm
          (((List.lookup region rest).getD []) ++ (fl ++ otherRegionFlags rest region))
          (fl ++ (((List.lookup region rest).getD []) ++ otherRegionFlags rest region)) := by
        rw [← List.append_assoc, ← List.append_assoc]
        exact (@List.perm_append_comm _ ((List.lookup region rest).getD [])
          fl).append_right _
      exact step1.trans ((ih hrest).append_left fl)

/-- Core deck shape lemma: building a deck from a duplicate-free pool of
available flags yields `2 · min pairs |pool|` cards with every flag on exactly
zero or two cards. -/
theorem deck_facts (rB rC : Nat → Nat) (p : Nat) (avail : List Flag)
    (hnd : avail.Nodup) :
    (shuffleArray rC (((shuffleArray rB avail).take p).flatMap fun f => [f, f])).length
      = 2 * min p avail.length
    ∧ ∀ f : Flag,
      (shuffleArray rC (((shuffleArray rB avail).take p).flatMap fun f => [f, f])).count f = 2
      ∨ (shuffleArray rC (((shuffleArray rB avail).take p).flatMap fun f => [f, f])).count f
          = 0 := by
  have hperm2 := shuffleArray_perm rB avail
  have hlen2 : (shuffleArray rB avail).length = avail.length := hperm2.length_eq
  have hnd2 : (shuffleArray rB avail).Nodup := (hperm2.nodup_iff).mpr hnd
  have hndTake : ((shuffleArray rB avail).take p).Nodup :=
    hnd2.sublist (List.take_sublist p _)
  have hpermC := shuffleArray_perm rC
    (((shuffleArray rB avail).take p).flatMap fun f => [f, f])
  constructor
  · rw [hpermC.length_eq, length_flatMap_pair, List.length_take, hlen2]
  · intro f
    rw [hpermC.count_eq, count_flatMap_pair]
    have hle1 : ((shuffleArray rB avail).take p).count f ≤ 1 :=
      List.nodup_iff_count_le_one.mp hndTake f
    interval_cases h : ((shuffleArray rB avail).take p).count f
    · right; rfl
    · left; rfl

/-- C1 (amended): with distinct region keys and pairwise-distinct continent
flags, and provided the selected region is a specific region (or is `"all"`
while the continent supplies at least `pairs` flags), the generated deck has
exactly `2 · min pairs (continent flag count)` cards — so exactly `2 · pairs`
cards unless the whole continent supplies fewer than `pairs` flags — and every
flag appears on exactly two cards or not at all. The exclusion of the
insufficient-continent `"all"` case is forced by the counterexample, where a
flag appears on four cards. -/
theorem generateCards_deck_shape (rA rB rC : Nat → Nat) (data : FlagsData)
    (region : String) (d : Difficulty)
    (hkeys : (data.map Prod.fst).Nodup) (hflags : (allFlags data).Nodup)
    (hr : region ≠ "all" ∨ (getDifficultySettings d).pairs ≤ (allFlags data).length) :
    (generateCards rA rB rC data region d).deck.length
      = 2 * min (getDifficultySettings d).pairs (allFlags data).length
    ∧ ∀ f : Flag, (generateCards rA rB rC data region d).deck.count f = 2
        ∨ (generateCards rA rB rC data region d).deck.count f = 0 := by
  have hgen : (generateCards rA rB rC data region d).deck
      = shuffleArray rC
          (((shuffleArray rB
              (if (getFlags data region).length < (getDifficultySettings d).pairs then
                getFlags data region ++
                  getAdditionalFlagsFromContinent rA data region
                    ((getDifficultySettings d).pairs * 2 - (getFlags data region).length)
              else getFlags data region)).take (getDifficultySettings d).pairs).flatMap
            fun f => [f, f]) := rfl
  set p := (getDifficultySettings d).pairs with hp
  set A := getFlags data region with hA
  set avail := (if A.length < p then
      A ++ getAdditionalFlagsFromContinent rA data region (p * 2 - A.length)
    else A) with havail
  have key : avail.Nodup ∧ min p avail.length = min p (allFlags data).length := by
    by_cases hall : region = "all"
    · have hple : p ≤ (allFlags data).length := hr.resolve_left (fun hne => hne hall)
      have hAeq : A = allFlags data := by
        rw [hA]; unfold getFlags; rw [if_pos hall]
      have hcond : ¬ A.length < p := by rw [hAeq]; omega
      rw [if_neg hcond] at havail
      refine ⟨by rw [havail, hAeq]; exact hflags, ?_⟩
      rw [havail, hAeq]
    · have hAeq : A = (data.lookup region).getD [] := by
        rw [hA]; unfold getFlags; rw [if_neg hall]
      set B := otherRegionFlags data region with hB
      have hAB : List.Perm (A ++ B) (allFlags data) := by
        rw [hAeq]; exact lookup_append_other_perm data region hkeys
      have hABnd : (A ++ B).Nodup := (hAB.nodup_iff).mpr hflags
      rw [List.nodup_append] at hABnd
      obtain ⟨hAnd, hBnd, hABdisj⟩ := hABnd
      have htot : A.length + B.length = (allFlags data).length := by
        simpa using hAB.length_eq
      by_cases hcond : A.length < p
      · rw [if_pos hcond] at havail
        set add := getAdditionalFlagsFromContinent rA data region (p * 2 - A.length)
          with hadd
        have hsub : add.Sublist (shuffleArray rA B) := by
          rw [hadd]; exact List.take_sublist _ _
        have hBperm := shuffleArray_perm rA B
        have haddnd : add.Nodup := ((hBperm.nodup_iff).mpr hBnd).sublist hsub
        have haddmem : ∀ x ∈ add, x ∈ B := fun x hx =>
          (hBperm.mem_iff).mp (hsub.subset hx)
        have hdisj : A.Disjoint add := fun x hxA hxadd => hABdisj hxA (haddmem x hxadd)
        have hnd : avail.Nodup := by
          rw [havail, List.nodup_append]
          exact ⟨hAnd, haddnd, hdisj⟩
        have haddlen : add.length = min (p * 2 - A.length) B.length := by
          rw [hadd]
          unfold getAdditionalFlagsFromContinent
          rw [List.length_take, hBperm.length_eq]
        have hlen : avail.length = A.length + add.length := by
          rw [havail, List.length_append]
        refine ⟨hnd, ?_⟩
        rw [hlen, haddlen]
        omega
      · rw [if_neg hcond] at havail
        refine ⟨by rw [havail]; exact hAnd, ?_⟩
        rw [havail]
        omega
  obtain ⟨hnd, hmin⟩ := key
  have hmain := deck_facts rB rC p avail hnd
  constructor
  · rw [hgen, hmain.1, hmin]
  · intro f
    rw [hgen]
    exact hmain.2 f

/-- C1 witness: on the seven-flag two-region continent with region `r1`
selected on easy, the deck has `2 · min 6 7 = 12` cards and flag `A` is on two
cards or absent. -/
theorem generateCards_deck_shape_witness :
    (generateCards (fun _ => 0) (fun _ => 0) (fun _ => 0) dataW "r1"
        Difficulty.easy).deck.length
      = 2 * min (getDifficultySettings Difficulty.easy).pairs (allFlags dataW).length
    ∧ ((generateCards (fun _ => 0) (fun _ => 0) (fun _ => 0) dataW "r1"
          Difficulty.easy).deck.count (tf "A") = 2
        ∨ (generateCards (fun _ => 0) (fun _ => 0) (fun _ => 0) dataW "r1"
            Difficulty.easy).deck.count (tf "A") = 0) :=
  ⟨(generateCards_deck_shape (fun _ => 0) (fun _ => 0) (fun _ => 0) dataW "r1"
      Difficulty.easy (by decide) (by decide) (Or.inl (by decide))).1,
   (generateCards_deck_shape (fun _ => 0) (fun _ => 0) (fun _ => 0) dataW "r1"
      Difficulty.easy (by decide) (by decide) (Or.inl (by decide))).2 (tf "A")⟩

/-- C1 counterexample: when region `"all"` is selected on a continent whose
total flag supply (two flags) is below the easy pair count (six), flag `A`
appears in the generated deck on four cards, refuting "every flag that appears
in the deck appears on exactly two cards". -/
theorem generateCards_allRegion_four_copies :
    (generateCards (fun _ => 0) (fun _ => 0) (fun _ => 0) dataSmall "all"
        Difficulty.easy).deck.count (tf "A") = 4
    ∧ ¬((generateCards (fun _ => 0) (fun _ => 0) (fun _ => 0) dataSmall "all"
          Difficulty.easy).deck.count (tf "A") = 2
        ∨ (generateCards (fun _ => 0) (fun _ => 0) (fun _ => 0) dataSmall "all"
            Difficulty.easy).deck.count (tf "A") = 0) := by
  decide

/-- C2: the fallback path (supplementary flags plus the region-mix
notice) triggers exactly when the selected region yields fewer than
`pairs` flags — with the data model's distinctness, fewer than `pairs`
distinct flags — and every supplementary flag produced by
`getAdditionalFlagsFromContinent` comes from a region of the same continent
whose key differs from the selected region. -/
theorem generateCards_fallback_iff (rA rB rC : Nat → Nat) (data : FlagsData)
    (region : String) (d : Difficulty)
    (_hnd : (getFlags data region).Nodup) :
    ((generateCards rA rB rC data region d).notified = true
      ↔ (getFlags data region).length < (getDifficultySettings d).pairs)
    ∧ ∀ n : Nat, ∀ f ∈ getAdditionalFlagsFromContinent rA data region n,
        ∃ e ∈ data, e.1 ≠ region ∧ f ∈ e.2 := by
  constructor
  · simp [generateCards]
  · intro n f hf
    unfold getAdditionalFlagsFromContinent at hf
    have hmem : f ∈ otherRegionFlags data region :=
      (shuffleArray_perm rA _).mem_iff.mp ((List.take_sublist _ _).subset hf)
    unfold otherRegionFlags at hmem
    rw [List.mem_flatten] at hmem
    obtain ⟨l, hl, hfl⟩ := hmem
    rw [List.mem_map] at hl
    obtain ⟨e, he, rfl⟩ := hl
    rw [List.mem_filter] at he
    exact ⟨e, he.1, by simpa using he.2, hfl⟩

/-- C2 witness: region `r1` of the seven-flag continent has three flags, below
the easy pair count, so the notice fires, and the supplementary flag `D`
indeed belongs to a region other than `r1`. -/
theorem generateCards_fallback_iff_witness :
    ((generateCards (fun _ => 0) (fun _ => 0) (fun _ => 0) dataW "r1"
        Difficulty.easy).notified = true
      ↔ (getFlags dataW "r1").length < (getDifficultySettings Difficulty.easy).pairs)
    ∧ ∃ e ∈ dataW, e.1 ≠ "r1" ∧ tf "D" ∈ e.2 :=
  ⟨(generateCards_fallback_iff (fun _ => 0) (fun _ => 0) (fun _ => 0) dataW "r1"
      Difficulty.easy (by decide)).1,
   (generateCards_fallback_iff (fun _ => 0) (fun _ => 0) (fun _ => 0) dataW "r1"
      Difficulty.easy (by decide)).2 9 (tf "D") (by decide)⟩

theorem length_setMatched (ui : List CardUI) (i : Nat) :
    (setMatched ui i).length = ui.length := by
  unfold setMatched
  cases h : ui[i]? with
  | none => rfl
  | some u => simp [List.length_set]

theorem length_setUnflipped (ui : List CardUI) (i : Nat) :
    (setUnflipped ui i).length = ui.length := by
  unfold setUnflipped
  cases h : ui[i]? with
  | none => rfl
  | some u => simp [List.length_set]

theorem uiMatchedAt_set_flip (ui : List CardUI) (i : Nat) (u : CardUI)
    (h : ui[i]? = some u) (k : Nat) :
    uiMatchedAt (ui.set i { u with flipped := true }) k = uiMatchedAt ui k := by
  unfold uiMatchedAt
  by_cases hik : i = k
  · subst hik
    have hlt := (List.getElem?_eq_some.mp h).1
    rw [List.getElem?_set_self hlt, h]
  · rw [List.getElem?_set_ne hik]

theorem uiMatchedAt_setMatched_self (ui : List CardUI) (i : Nat)
    (h : i < ui.length) : uiMatchedAt (setMatched ui i) i = true := by
  unfold setMatched uiMatchedAt
  rw [List.getElem?_eq_getElem h]
  rw [List.getElem?_set_self h]

theorem uiMatchedAt_setMatched_preserve (ui : List CardUI) (j k : Nat)
    (h : uiMatchedAt ui k = true) : uiMatchedAt (setMatched ui j) k = true := by
  unfold setMatched
  cases hj : ui[j]? with
  | none => exact h
  | some u =>
    unfold uiMatchedAt at h ⊢
    by_cases hjk : j = k
    · subst hjk
      have hlt := (List.getElem?_eq_some.mp hj).1
      rw [List.getElem?_set_self hlt]
    · rw [List.getElem?_set_ne hjk]
      exact h

theorem uiMatchedAt_setUnflipped (ui : List CardUI) (j k : Nat) :
    uiMatchedAt (setUnflipped ui j) k = uiMatchedAt ui k := by
  unfold setUnflipped
  cases hj : ui[j]? with
  | none => rfl
  | some u =>
    unfold uiMatchedAt
    by_cases hjk : j = k
    · subst hjk
      have hlt := (List.getElem?_eq_some.mp hj).1
      rw [List.getElem?_set_self hlt, hj]
    · rw [List.getElem?_set_ne hjk]

theorem uiFlippedAt_setUnflipped_self (ui : List CardUI) (i : Nat)
    (h : i < ui.length) : uiFlippedAt (setUnflipped ui i) i = false := by
  unfold setUnflipped uiFlippedAt
  rw [List.getElem?_eq_getElem h]
  rw [List.getElem?_set_self h]

theorem uiFlippedAt_setUnflipped_preserve (ui : List CardUI) (j k : Nat)
    (h : uiFlippedAt ui k = false) : uiFlippedAt (setUnflipped ui j) k = false := by
  unfold setUnflipped
  cases hj : ui[j]? with
  | none => exact h
  | some u =>
    unfold uiFlippedAt at h ⊢
    by_cases hjk : j = k
    · subst hjk
      have hlt := (List.getElem?_eq_some.mp hj).1
      rw [List.getElem?_set_self hlt]
    · rw [List.getElem?_set_ne hjk]
      exact h

theorem countMatched_set_of_matched_eq (ui : List CardUI) (i : Nat) (u v : CardUI)
    (h : ui[i]? = some u) (hv : v.matched = u.matched) :
    countMatched (ui.set i v) = countMatched ui := by
  obtain ⟨hlt, hget⟩ := List.getElem?_eq_some.mp h
  unfold countMatched
  rw [List.countP_set _ _ _ _ hlt, hget, hv]
  cases hb : u.matched with
  | false => simp [hb]
  | true =>
    have hpos : 0 < ui.countP (fun w => w.matched) := by
      refine List.countP_pos_iff.mpr ⟨ui[i], List.getElem_mem hlt, ?_⟩
      rw [hget, hb]
    simp only [hb, if_true]
    omega

theorem countMatched_setMatched (ui : List CardUI) (i : Nat) (u : CardUI)
    (h : ui[i]? = some u) (hm : u.matched = false) :
    countMatched (setMatched ui i) = countMatched ui + 1 := by
  unfold setMatched
  rw [h]
  obtain ⟨hlt, hget⟩ := List.getElem?_eq_some.mp h
  unfold countMatched
  rw [List.countP_set _ _ _ _ hlt, hget]
  simp [hm]

theorem countMatched_setUnflipped (ui : List CardUI) (i : Nat) :
    countMatched (setUnflipped ui i) = countMatched ui := by
  unfold setUnflipped
  cases h : ui[i]? with
  | none => rfl
  | some u => exact countMatched_set_of_matched_eq ui i u _ h rfl

theorem getElem?_setMatched_ne (ui : List CardUI) (i j : Nat) (hij : i ≠ j) :
    (setMatched ui i)[j]? = ui[j]? := by
  unfold setMatched
  cases h : ui[i]? with
  | none => rfl
  | some u => exact List.getElem?_set_ne hij

theorem pairs_pos (d : Difficulty) : 0 < (getDifficultySettings d).pairs := by
  cases d <;> decide

/-- Characterisation of `flipCard` when the guard rejects the click. -/
theorem flipCard_noop (s : GameState) (i : Nat)
    (h : 2 ≤ s.flippedCards.length ∨ flippedAt s i = true ∨ matchedAt s i = true) :
    flipCard s i = s := by
  unfold flipCard
  cases hui : s.ui[i]? with
  | none => rfl
  | some u =>
    cases hc : s.cards[i]? with
    | none => rfl
    | some c =>
      have hguard : 2 ≤ s.flippedCards.length ∨ u.flipped = true ∨ u.matched = true := by
        rcases h with h | h | h
        · exact Or.inl h
        · refine Or.inr (Or.inl ?_)
          unfold flippedAt uiFlippedAt at h
          rw [hui] at h
          exact h
        · refine Or.inr (Or.inr ?_)
          unfold matchedAt uiMatchedAt at h
          rw [hui] at h
          exact h
      dsimp only
      rw [if_pos hguard]

/-- Characterisation of `flipCard` when the click is accepted. -/
theorem flipCard_eq (s : GameState) (i : Nat) (u : CardUI) (c : Flag)
    (hui : s.ui[i]? = some u) (hc : s.cards[i]? = some c)
    (hguard : ¬(2 ≤ s.flippedCards.length ∨ u.flipped = true ∨ u.matched = true)) :
    flipCard s i =
      (let s1 := if s.gameStarted then s else
          { s with timerRunning := true, gameStarted := true }
        let s2 := { s1 with
          ui := s1.ui.set i { u with flipped := true }
          flippedCards := s1.flippedCards ++ [⟨c.country, i⟩] }
        if s2.flippedCards.length = 2 then { s2 with moves := s2.moves + 1 } else s2) := by
  unfold flipCard
  rw [hui, hc]
  dsimp only
  rw [if_neg hguard]

/-- Characterisation of `checkMatch` on a matching pending pair. -/
theorem checkMatch_eq_match (s : GameState) (c1 c2 : FlippedEntry)
    (rest : List FlippedEntry) (hp : s.flippedCards = c1 :: c2 :: rest)
    (hcc : c1.country = c2.country) :
    checkMatch s = some { s with
      ui := setMatched (setMatched s.ui c1.index) c2.index
      matchedPairs := s.matchedPairs + 1
      wonCount := if s.matchedPairs + 1 = (getDifficultySettings s.difficulty).pairs
        then s.wonCount + 1 else s.wonCount
      timerRunning := if s.matchedPairs + 1 = (getDifficultySettings s.difficulty).pairs
        then false else s.timerRunning
      flippedCards := [] } := by
  unfold checkMatch
  rw [hp]
  dsimp only
  rw [if_pos hcc]

/-- Characterisation of `checkMatch` on a mismatching pending pair. -/
theorem checkMatch_eq_mismatch (s : GameState) (c1 c2 : FlippedEntry)
    (rest : List FlippedEntry) (hp : s.flippedCards = c1 :: c2 :: rest)
    (hcc : ¬ c1.country = c2.country) :
    checkMatch s = some { s with
      ui := setUnflipped (setUnflipped s.ui c1.index) c2.index
      flippedCards := [] } := by
  unfold checkMatch
  rw [hp]
  dsimp only
  rw [if_neg hcc]

theorem countMatched_freshUI (n : Nat) : countMatched (freshUI n) = 0 := by
  unfold countMatched freshUI
  induction n with
  | zero => rfl
  | succ m ih =>
    rw [List.replicate_succ, List.countP_cons]
    simp [ih]

theorem inv_initState (deck : List Flag) (d : Difficulty) : Inv (initState deck d) := by
  have hp := pairs_pos d
  refine ⟨?_, ?_, ?_, ?_, ?_, ?_, ?_, ?_⟩
  · simp [initState, freshUI]
  · simp [initState]
  · simp [initState]
  · simp [initState]
  · simpa [initState] using countMatched_freshUI deck.length
  · dsimp only [initState]
    rw [if_neg (by omega)]
  · simp [initState]
  · simp [initState]

/-- `flipCard` never changes the deck, the difficulty, the matched-pair count
or the number of `gameWon` invocations. -/
theorem flipCard_frame (s : GameState) (i : Nat) :
    (flipCard s i).cards = s.cards ∧ (flipCard s i).difficulty = s.difficulty
    ∧ (flipCard s i).matchedPairs = s.matchedPairs
    ∧ (flipCard s i).wonCount = s.wonCount := by
  unfold flipCard
  cases hui : s.ui[i]? with
  | none => exact ⟨rfl, rfl, rfl, rfl⟩
  | some u =>
    cases hc : s.cards[i]? with
    | none => exact ⟨rfl, rfl, rfl, rfl⟩
    | some c =>
      dsimp only
      split
      · exact ⟨rfl, rfl, rfl, rfl⟩
      · split <;> split <;> exact ⟨rfl, rfl, rfl, rfl⟩

/-- `checkMatch` never changes the deck or the difficulty. -/
theorem checkMatch_frame (s s' : GameState) (h : checkMatch s = some s') :
    s'.cards = s.cards ∧ s'.difficulty = s.difficulty := by
  cases hp : s.flippedCards with
  | nil => simp [checkMatch, hp] at h
  | cons c1 tl =>
    cases tl with
    | nil => simp [checkMatch, hp] at h
    | cons c2 rest =>
      by_cases hcc : c1.country = c2.country
      · rw [checkMatch_eq_match s c1 c2 rest hp hcc] at h
        have he := Option.some.inj h
        subst he
        exact ⟨rfl, rfl⟩
      · rw [checkMatch_eq_mismatch s c1 c2 rest hp hcc] at h
        have he := Option.some.inj h
        subst he
        exact ⟨rfl, rfl⟩

/-- The session invariant survives an accepted card flip, whatever the
resulting `moves` value and timer/started flags. -/
theorem inv_flip_core (s : GameState) (i : Nat) (u : CardUI) (c : Flag)
    (gs tr : Bool) (mv : Nat) (hinv : Inv s) (hui : s.ui[i]? = some u)
    (hflip : u.flipped = false) (hmat : u.matched = false)
    (hlen1 : s.flippedCards.length < 2) (hgs : gs = true)
    (htr : s.wonCount = 1 → tr = false) :
    Inv { cards := s.cards, ui := s.ui.set i { u with flipped := true },
          flippedCards := s.flippedCards ++ [⟨c.country, i⟩],
          matchedPairs := s.matchedPairs, moves := mv, gameStarted := gs,
          timerRunning := tr, wonCount := s.wonCount,
          difficulty := s.difficulty } := by
  have hlt : i < s.ui.length := (List.getElem?_eq_some.mp hui).1
  refine ⟨?_, ?_, ?_, ?_, ?_, ?_, ?_, ?_⟩
  · dsimp only
    rw [List.length_set]
    exact hinv.ui_len
  · dsimp only
    rw [List.length_append]
    simp only [List.length_cons, List.length_nil]
    omega
  · dsimp only
    intro e he
    rcases List.mem_append.mp he with hold | hnew
    · obtain ⟨ue, hue, huef, huem⟩ := hinv.pend_ok e hold
      have hne : i ≠ e.index := by
        intro hEq
        rw [← hEq, hui] at hue
        have huu : u = ue := Option.some.inj hue
        rw [← huu, hflip] at huef
        exact Bool.false_ne_true huef
      refine ⟨ue, ?_, huef, huem⟩
      rw [List.getElem?_set_ne hne]
      exact hue
    · have heq : e = ⟨c.country, i⟩ := by simpa using hnew
      subst heq
      exact ⟨{ u with flipped := true }, List.getElem?_set_self hlt, rfl, hmat⟩
  · dsimp only
    rw [List.map_append]
    refine List.Nodup.append hinv.pend_nodup (List.nodup_singleton _) ?_
    intro a ha hb
    have hai : a = i := by simpa using hb
    subst hai
    obtain ⟨e, he, hei⟩ := List.mem_map.mp ha
    obtain ⟨ue, hue, huef, _⟩ := hinv.pend_ok e he
    rw [hei, hui] at hue
    have huu : u = ue := Option.some.inj hue
    rw [← huu, hflip] at huef
    exact Bool.false_ne_true huef
  · dsimp only
    rw [countMatched_set_of_matched_eq s.ui i u { u with flipped := true } hui rfl]
    exact hinv.matched_two
  · dsimp only
    exact hinv.won_eq
  · dsimp only
    intro hw
    exact ⟨htr hw, hgs⟩
  · dsimp only
    intro
    exact hgs

/-- The session invariant is preserved by every scheduler step. -/
theorem inv_step {s s' : GameState} (hinv : Inv s) (hstep : Step s s') : Inv s' := by
  cases hstep with
  | flip i =>
    cases hui : s.ui[i]? with
    | none =>
      have hnoop : flipCard s i = s := by
        unfold flipCard; rw [hui]
      rw [hnoop]; exact hinv
    | some u =>
      cases hc : s.cards[i]? with
      | none =>
        have hnoop : flipCard s i = s := by
          unfold flipCard; rw [hui, hc]
        rw [hnoop]; exact hinv
      | some c =>
        by_cases hguard : 2 ≤ s.flippedCards.length ∨ u.flipped = true ∨ u.matched = true
        · have hnoop : flipCard s i = s := by
            unfold flipCard; rw [hui, hc]; dsimp only; rw [if_pos hguard]
          rw [hnoop]; exact hinv
        · have hlen1 : s.flippedCards.length < 2 := by
            by_contra hcon
            exact hguard (Or.inl (by omega))
          have hflip' : u.flipped = false := by
            by_contra hcon
            exact hguard (Or.inr (Or.inl (by simpa using hcon)))
          have hmat' : u.matched = false := by
            by_contra hcon
            exact hguard (Or.inr (Or.inr (by simpa using hcon)))
          rw [flipCard_eq s i u c hui hc hguard]
          dsimp only
          by_cases hgs : s.gameStarted = true
          · rw [if_pos hgs]
            split
            · exact inv_flip_core s i u c s.gameStarted s.timerRunning (s.moves + 1)
                hinv hui hflip' hmat' hlen1 hgs (fun hw => (hinv.won_timer hw).1)
            · exact inv_flip_core s i u c s.gameStarted s.timerRunning s.moves
                hinv hui hflip' hmat' hlen1 hgs (fun hw => (hinv.won_timer hw).1)
          · rw [if_neg hgs]
            split
            · exact inv_flip_core s i u c true true (s.moves + 1)
                hinv hui hflip' hmat' hlen1 rfl
                (fun hw => absurd (hinv.won_timer hw).2 hgs)
            · exact inv_flip_core s i u c true true s.moves
                hinv hui hflip' hmat' hlen1 rfl
                (fun hw => absurd (hinv.won_timer hw).2 hgs)
  | check s1 hcm =>
    cases hp : s.flippedCards with
    | nil => simp [checkMatch, hp] at hcm
    | cons c1 tl =>
      cases tl with
      | nil => simp [checkMatch, hp] at hcm
      | cons c2 rest =>
        have hc1mem : c1 ∈ s.flippedCards := by
          rw [hp]; exact List.mem_cons_self _ _
        have hc2mem : c2 ∈ s.flippedCards := by
          rw [hp]; exact List.mem_cons_of_mem _ (List.mem_cons_self _ _)
        obtain ⟨u1, hu1, hu1f, hu1m⟩ := hinv.pend_ok c1 hc1mem
        obtain ⟨u2, hu2, hu2f, hu2m⟩ := hinv.pend_ok c2 hc2mem
        have hidx : c1.index ≠ c2.index := by
          have hnd := hinv.pend_nodup
          rw [hp] at hnd
          simp only [List.map_cons, List.nodup_cons, List.mem_cons] at hnd
          intro hEq
          exact hnd.1 (Or.inl hEq)
        have hstarted : s.gameStarted = true := hinv.pend_started (by rw [hp]; simp)
        by_cases hcc : c1.country = c2.country
        · rw [checkMatch_eq_match s c1 c2 rest hp hcc] at hcm
          have he := Option.some.inj hcm
          subst he
          refine ⟨?_, ?_, ?_, ?_, ?_, ?_, ?_, ?_⟩
          · dsimp only
            rw [length_setMatched, length_setMatched]
            exact hinv.ui_len
          · dsimp only; simp
          · dsimp only
            intro e he2
            simp at he2
          · dsimp only; simp
          · dsimp only
            have h1 : countMatched (setMatched s.ui c1.index) = countMatched s.ui + 1 :=
              countMatched_setMatched s.ui c1.index u1 hu1 hu1m
            have hu2' : (setMatched s.ui c1.index)[c2.index]? = some u2 := by
              rw [getElem?_setMatched_ne s.ui c1.index c2.index hidx]
              exact hu2
            have h2 : countMatched (setMatched (setMatched s.ui c1.index) c2.index)
                = countMatched (setMatched s.ui c1.index) + 1 :=
              countMatched_setMatched _ c2.index u2 hu2' hu2m
            rw [h2, h1, hinv.matched_two]
            omega
          · dsimp only
            rw [hinv.won_eq]
            split_ifs <;> omega
          · dsimp only
            intro hw
            refine ⟨?_, hstarted⟩
            by_cases hwon : s.matchedPairs + 1 = (getDifficultySettings s.difficulty).pairs
            · rw [if_pos hwon]
            · rw [if_neg hwon]
              rw [if_neg hwon] at hw
              exact (hinv.won_timer hw).1
          · dsimp only
            intro
            exact hstarted
        · rw [checkMatch_eq_mismatch s c1 c2 rest hp hcc] at hcm
          have he := Option.some.inj hcm
          subst he
          refine ⟨?_, ?_, ?_, ?_, ?_, ?_, ?_, ?_⟩
          · dsimp only
            rw [length_setUnflipped, length_setUnflipped]
            exact hinv.ui_len
          · dsimp only; simp
          · dsimp only
            intro e he2
            simp at he2
          · dsimp only; simp
          · dsimp only
            rw [countMatched_setUnflipped, countMatched_setUnflipped]
            exact hinv.matched_two
          · dsimp only
            exact hinv.won_eq
          · dsimp only
            intro hw
            exact ⟨(hinv.won_timer hw).1, hstarted⟩
          · dsimp only
            intro
            exact hstarted

/-- Every state reachable in a session satisfies the invariant. -/
theorem inv_reachable (deck : List Flag) (d : Difficulty) (s : GameState)
    (h : Reachable deck d s) : Inv s := by
  induction h with
  | init => exact inv_initState deck d
  | step _ hstep ih => exact inv_step ih hstep

/-- Within a session, the deck and the difficulty never change. -/
theorem reachable_frame (deck : List Flag) (d : Difficulty) (s : GameState)
    (h : Reachable deck d s) : s.cards = deck ∧ s.difficulty = d := by
  induction h with
  | init => exact ⟨rfl, rfl⟩
  | step _ hstep ih =>
    cases hstep with
    | flip i =>
      obtain ⟨h1, h2, _, _⟩ := flipCard_frame _ i
      exact ⟨h1.trans ih.1, h2.trans ih.2⟩
    | check s1 hcm =>
      obtain ⟨h1, h2⟩ := checkMatch_frame _ _ hcm
      exact ⟨h1.trans ih.1, h2.trans ih.2⟩

/-- `checkMatch` never decreases the matched-pair count. -/
theorem checkMatch_mp_mono (s s' : GameState) (h : checkMatch s = some s') :
    s.matchedPairs ≤ s'.matchedPairs := by
  cases hp : s.flippedCards with
  | nil => simp [checkMatch, hp] at h
  | cons c1 tl =>
    cases tl with
    | nil => simp [checkMatch, hp] at h
    | cons c2 rest =>
      by_cases hcc : c1.country = c2.country
      · rw [checkMatch_eq_match s c1 c2 rest hp hcc] at h
        have he := Option.some.inj h
        subst he
        exact Nat.le_succ _
      · rw [checkMatch_eq_mismatch s c1 c2 rest hp hcc] at h
        have he := Option.some.inj h
        subst he
        exact le_refl _

/-- C5 (amended): along every scheduler step `matchedPairs` never decreases;
in every reachable session state `matchedPairs` never exceeds the deck's pair
count (half the card count), `gameWon` has been invoked exactly once iff
`matchedPairs` has reached the difficulty's nominal pair count (so exactly
once at the moment it is reached, with the clock stopped from then on), and
when the deck holds fewer pairs than the nominal count the win transition
never happens at all. The original claim's "or the deck's actual pair count
when the deck has fewer pairs" clause is refuted by the counterexample. -/
theorem matchedPairs_won_invariants (deck : List Flag) (d : Difficulty) :
    (∀ s s' : GameState, Step s s' → s.matchedPairs ≤ s'.matchedPairs)
    ∧ ∀ s : GameState, Reachable deck d s →
        2 * s.matchedPairs ≤ s.cards.length
        ∧ s.wonCount
            = (if (getDifficultySettings d).pairs ≤ s.matchedPairs then 1 else 0)
        ∧ (s.wonCount = 1 → s.timerRunning = false)
        ∧ (s.cards.length < 2 * (getDifficultySettings d).pairs → s.wonCount = 0) := by
  constructor
  · intro s s' hstep
    cases hstep with
    | flip i =>
      obtain ⟨_, _, hmp, _⟩ := flipCard_frame s i
      omega
    | check s1 hcm => exact checkMatch_mp_mono _ _ hcm
  · intro s hreach
    have hinv := inv_reachable deck d s hreach
    have hframe := reachable_frame deck d s hreach
    have hcount : countMatched s.ui ≤ s.ui.length := List.countP_le_length _
    have h2mp : 2 * s.matchedPairs ≤ s.cards.length := by
      rw [← hinv.ui_len, ← hinv.matched_two]
      exact hcount
    have hwon : s.wonCount
        = (if (getDifficultySettings d).pairs ≤ s.matchedPairs then 1 else 0) := by
      rw [hinv.won_eq, hframe.2]
    refine ⟨h2mp, hwon, fun hw => (hinv.won_timer hw).1, ?_⟩
    intro hlt
    rw [hwon, if_neg (by omega)]

/-- C5 witness: on a fresh one-pair session, a first flip does not decrease
`matchedPairs`, and the initial state satisfies every invariant clause. -/
theorem matchedPairs_won_invariants_witness :
    ((initState [tf "A", tf "A"] Difficulty.easy).matchedPairs
        ≤ (flipCard (initState [tf "A", tf "A"] Difficulty.easy) 0).matchedPairs)
    ∧ (2 * (initState [tf "A", tf "A"] Difficulty.easy).matchedPairs
          ≤ (initState [tf "A", tf "A"] Difficulty.easy).cards.length
      ∧ (initState [tf "A", tf "A"] Difficulty.easy).wonCount
          = (if (getDifficultySettings Difficulty.easy).pairs
              ≤ (initState [tf "A", tf "A"] Difficulty.easy).matchedPairs then 1 else 0)
      ∧ ((initState [tf "A", tf "A"] Difficulty.easy).wonCount = 1
          → (initState [tf "A", tf "A"] Difficulty.easy).timerRunning = false)
      ∧ ((initState [tf "A", tf "A"] Difficulty.easy).cards.length
            < 2 * (getDifficultySettings Difficulty.easy).pairs
          → (initState [tf "A", tf "A"] Difficulty.easy).wonCount = 0)) :=
  ⟨(matchedPairs_won_invariants [tf "A", tf "A"] Difficulty.easy).1 _ _
      (Step.flip _ 0),
   (matchedPairs_won_invariants [tf "A", tf "A"] Difficulty.easy).2 _ Reachable.init⟩

/-- C5 counterexample: on a deck holding a single pair (as arises when the
continent supplies fewer flags than the difficulty expects), matching that
pair brings `matchedPairs` to the deck's actual pair count (1 = 2 cards / 2),
yet `gameWon` is never invoked: `checkMatch` compares only against the nominal
pair count 6. The claimed win transition at the deck's actual pair count does
not exist. -/
theorem smallDeck_reaches_pairs_without_win :
    (checkMatch (flipCard (flipCard (initState [tf "A", tf "A"] Difficulty.easy) 0) 1)).map
        (fun s => (s.matchedPairs, s.wonCount, s.cards.length))
      = some (1, 0, 2) := by decide

/-- C6: when a second card becomes face-up, `moves` increments by exactly one
and the pending entry for the card's flag is appended; the subsequent
`checkMatch` compares the two pending cards by their underlying flag's country
(not by board position): equal countries mark both cards matched and increment
`matchedPairs` by one, different countries flip both back face-down, and the
pending list is cleared in both cases. -/
theorem secondFlip_and_checkMatch :
    (∀ (s : GameState) (i : Nat) (u : CardUI) (c : Flag),
      s.ui[i]? = some u → s.cards[i]? = some c → s.flippedCards.length = 1 →
      u.flipped = false → u.matched = false →
      (flipCard s i).moves = s.moves + 1
      ∧ (flipCard s i).flippedCards = s.flippedCards ++ [⟨c.country, i⟩])
    ∧ ∀ (t : GameState) (e1 e2 : FlippedEntry) (rest : List FlippedEntry),
      t.flippedCards = e1 :: e2 :: rest →
      (e1.country = e2.country →
        ∃ t', checkMatch t = some t'
          ∧ t'.matchedPairs = t.matchedPairs + 1
          ∧ t'.flippedCards = []
          ∧ (e1.index < t.ui.length → matchedAt t' e1.index = true)
          ∧ (e2.index < t.ui.length → matchedAt t' e2.index = true))
      ∧ (e1.country ≠ e2.country →
        ∃ t', checkMatch t = some t'
          ∧ t'.matchedPairs = t.matchedPairs
          ∧ t'.flippedCards = []
          ∧ (e1.index < t.ui.length → flippedAt t' e1.index = false)
          ∧ (e2.index < t.ui.length → flippedAt t' e2.index = false)) := by
  constructor
  · intro s i u c hui hc hlen hf hm
    have hguard : ¬(2 ≤ s.flippedCards.length ∨ u.flipped = true ∨ u.matched = true) := by
      push_neg
      exact ⟨by omega, by simp [hf], by simp [hm]⟩
    rw [flipCard_eq s i u c hui hc hguard]
    dsimp only
    by_cases hgs : s.gameStarted = true
    · rw [if_pos hgs]
      split
      · exact ⟨rfl, rfl⟩
      · next hcon => exact absurd (by simp [hlen]) hcon
    · rw [if_neg hgs]
      split
      · exact ⟨rfl, rfl⟩
      · next hcon =>
        refine absurd ?_ hcon
        show (s.flippedCards ++ [(⟨c.country, i⟩ : FlippedEntry)]).length = 2
        simp [hlen]
  · intro t e1 e2 rest hp
    constructor
    · intro hcc
      refine ⟨_, checkMatch_eq_match t e1 e2 rest hp hcc, rfl, rfl, ?_, ?_⟩
      · intro h1
        show uiMatchedAt (setMatched (setMatched t.ui e1.index) e2.index) e1.index = true
        exact uiMatchedAt_setMatched_preserve _ e2.index e1.index
          (uiMatchedAt_setMatched_self t.ui e1.index h1)
      · intro h2
        show uiMatchedAt (setMatched (setMatched t.ui e1.index) e2.index) e2.index = true
        refine uiMatchedAt_setMatched_self _ e2.index ?_
        rw [length_setMatched]
        exact h2
    · intro hcc
      refine ⟨_, checkMatch_eq_mismatch t e1 e2 rest hp hcc, rfl, rfl, ?_, ?_⟩
      · intro h1
        show uiFlippedAt (setUnflipped (setUnflipped t.ui e1.index) e2.index) e1.index = false
        exact uiFlippedAt_setUnflipped_preserve _ e2.index e1.index
          (uiFlippedAt_setUnflipped_self t.ui e1.index h1)
      · intro h2
        show uiFlippedAt (setUnflipped (setUnflipped t.ui e1.index) e2.index) e2.index = false
        refine uiFlippedAt_setUnflipped_self _ e2.index ?_
        rw [length_setUnflipped]
        exact h2

/-- C6 witness: on the one-pair session with card 0 already face-up, flipping
card 1 increments `moves` and appends the pending entry; the pending pair
("A" and "A") then matches: `matchedPairs` goes up by one, both cards are
marked matched and the pending list empties. -/
theorem secondFlip_and_checkMatch_witness :
    ((flipCard sW 1).moves = sW.moves + 1
      ∧ (flipCard sW 1).flippedCards = sW.flippedCards ++ [⟨"A", 1⟩])
    ∧ ∃ t', checkMatch (flipCard sW 1) = some t'
        ∧ t'.matchedPairs = (flipCard sW 1).matchedPairs + 1
        ∧ t'.flippedCards = []
        ∧ (0 < (flipCard sW 1).ui.length → matchedAt t' 0 = true)
        ∧ (1 < (flipCard sW 1).ui.length → matchedAt t' 1 = true) :=
  ⟨secondFlip_and_checkMatch.1 sW 1 ⟨false, false⟩ (tf "A") (by decide) (by decide)
      (by decide) rfl rfl,
   (secondFlip_and_checkMatch.2 (flipCard sW 1) ⟨"A", 0⟩ ⟨"A", 1⟩ []
      (by decide)).1 rfl⟩

/-- Every way `flipCard` can leave the UI list. -/
theorem flipCard_ui_cases (s : GameState) (i : Nat) :
    (flipCard s i).ui = s.ui
    ∨ ∃ u, s.ui[i]? = some u
        ∧ (flipCard s i).ui = s.ui.set i { u with flipped := true } := by
  unfold flipCard
  cases hui : s.ui[i]? with
  | none => exact Or.inl rfl
  | some u =>
    cases hc : s.cards[i]? with
    | none => exact Or.inl rfl
    | some c =>
      dsimp only
      split
      · exact Or.inl rfl
      · refine Or.inr ⟨u, rfl, ?_⟩
        split <;> split <;> rfl

/-- C7: in every reachable session state at most two cards are pending;
`flipCard` is a no-op whenever two cards are already face-up or the targeted
card is already face-up or matched; and no scheduler step ever takes a card
out of the matched state. -/
theorem flip_noop_and_matched_permanence (deck : List Flag) (d : Difficulty) :
    (∀ s : GameState, Reachable deck d s → s.flippedCards.length ≤ 2)
    ∧ (∀ (s : GameState) (i : Nat),
        2 ≤ s.flippedCards.length ∨ flippedAt s i = true ∨ matchedAt s i = true →
        flipCard s i = s)
    ∧ ∀ (s s' : GameState) (i : Nat), Step s s' →
        matchedAt s i = true → matchedAt s' i = true := by
  refine ⟨?_, ?_, ?_⟩
  · intro s hreach
    exact (inv_reachable deck d s hreach).pend_le
  · intro s i h
    exact flipCard_noop s i h
  · intro s s' i hstep hmat
    cases hstep with
    | flip j =>
      rcases flipCard_ui_cases s j with hsame | ⟨u, hui, hset⟩
      · show uiMatchedAt (flipCard s j).ui i = true
        rw [hsame]
        exact hmat
      · show uiMatchedAt (flipCard s j).ui i = true
        rw [hset, uiMatchedAt_set_flip s.ui j u hui i]
        exact hmat
    | check s1 hcm =>
      cases hp : s.flippedCards with
      | nil => simp [checkMatch, hp] at hcm
      | cons c1 tl =>
        cases tl with
        | nil => simp [checkMatch, hp] at hcm
        | cons c2 rest =>
          by_cases hcc : c1.country = c2.country
          · rw [checkMatch_eq_match s c1 c2 rest hp hcc] at hcm
            have he := Option.some.inj hcm
            subst he
            show uiMatchedAt (setMatched (setMatched s.ui c1.index) c2.index) i = true
            exact uiMatchedAt_setMatched_preserve _ c2.index i
              (uiMatchedAt_setMatched_preserve _ c1.index i hmat)
          · rw [checkMatch_eq_mismatch s c1 c2 rest hp hcc] at hcm
            have he := Option.some.inj hcm
            subst he
            show uiMatchedAt (setUnflipped (setUnflipped s.ui c1.index) c2.index) i = true
            rw [uiMatchedAt_setUnflipped, uiMatchedAt_setUnflipped]
            exact hmat

/-- C7 witness: the fresh one-pair session has at most two pending cards;
with two cards pending the next click is a no-op; and a click after the match
leaves the matched card matched. -/
theorem flip_noop_and_matched_permanence_witness :
    (initState [tf "A", tf "A"] Difficulty.easy).flippedCards.length ≤ 2
    ∧ flipCard sW2 0 = sW2
    ∧ matchedAt (flipCard tW 0) 0 = true :=
  ⟨(flip_noop_and_matched_permanence [tf "A", tf "A"] Difficulty.easy).1 _
      Reachable.init,
   (flip_noop_and_matched_permanence [tf "A", tf "A"] Difficulty.easy).2.1 sW2 0
      (Or.inl (by decide)),
   (flip_noop_and_matched_permanence [tf "A", tf "A"] Difficulty.easy).2.2 tW
      (flipCard tW 0) 0 (Step.flip tW 0) (by decide)⟩

/-- C4: `restartGame` does not keep the deck. Its own comment promises "the
same cards, but reshuffled", and it does shuffle `this.cards` — but it then
awaits `createGameBoard`, which overwrites `this.cards` with a freshly
generated deck from refetched data. Concretely, on the seven-flag region on
easy, the session's deck (all-zero random stream) contains no `F1` card, while
the board after `restartGame` (all-one stream) contains `F1` twice: the
multiset of board flags differs from the previous deck. The counter resets the
claim also mentions do hold. -/
theorem restartGame_changes_deck :
    ((generateCards (fun _ => 0) (fun _ => 0) (fun _ => 0) data7 "r"
        Difficulty.easy).deck.count (tf "F1") = 0)
    ∧ ((restartGame (fun _ => 1) (fun _ => 1) (fun _ => 1) (fun _ => 1) data7 "r"
        { initState (generateCards (fun _ => 0) (fun _ => 0) (fun _ => 0) data7 "r"
            Difficulty.easy).deck Difficulty.easy with
          moves := 7, matchedPairs := 2 }).cards.count (tf "F1") = 2)
    ∧ ((restartGame (fun _ => 1) (fun _ => 1) (fun _ => 1) (fun _ => 1) data7 "r"
        { initState (generateCards (fun _ => 0) (fun _ => 0) (fun _ => 0) data7 "r"
            Difficulty.easy).deck Difficulty.easy with
          moves := 7, matchedPairs := 2 }).moves = 0)
    ∧ ((restartGame (fun _ => 1) (fun _ => 1) (fun _ => 1) (fun _ => 1) data7 "r"
        { initState (generateCards (fun _ => 0) (fun _ => 0) (fun _ => 0) data7 "r"
            Difficulty.easy).deck Difficulty.easy with
          moves := 7, matchedPairs := 2 }).matchedPairs = 0) := by
  decide

/-- C10: `resetGame`/`startNewGame` never invalidate the delayed match check
scheduled by the previous session's second flip. In the interleaving traced by
`c10AfterFlips` (two flips, new game during the one-second delay, two flips of
the new session), the stale callback's `checkMatch` fires successfully into
the new session: it performs the new session's match early (`matchedPairs`
increments, the pending list is cleared), and the new session's own scheduled
check then finds an empty pending list and throws. -/
theorem staleCheck_mutates_newSession :
    (checkMatch c10AfterFlips).isSome = true
    ∧ ((checkMatch c10AfterFlips).getD c10AfterFlips).matchedPairs
        = c10AfterFlips.matchedPairs + 1
    ∧ ((checkMatch c10AfterFlips).getD c10AfterFlips).flippedCards = []
    ∧ checkMatch ((checkMatch c10AfterFlips).getD c10AfterFlips) = none := by
  decide

/-- C3: for an authenticated user with an initialised Supabase client, a
failing remote insert makes `ScoreService.saveScore` rethrow the error and
leave local storage untouched — the layer has no local fallback write, so the
submitted score is not recorded locally by this path (and the game's
submission path, `FlagsofWorld.saveScore`, never attempts a remote write at
all). -/
theorem scoreService_remote_failure_no_local_fallback (m uid : String)
    (sd : ScoreData) (store : LocalStore) :
    ScoreService.saveScore ⟨true, some uid, RemoteOutcome.err m⟩ sd store
      = (SaveResult.err m, store) := rfl

theorem scoreLE_trans : ∀ a b c : StoredScore,
    scoreLE a b = true → scoreLE b c = true → scoreLE a c = true := by
  intro a b c h1 h2
  simp only [scoreLE, Bool.or_eq_true, Bool.and_eq_true, decide_eq_true_eq,
    beq_iff_eq] at h1 h2 ⊢
  rcases h1 with h1 | ⟨h1e, h1t⟩
  · rcases h2 with h2 | ⟨h2e, h2t⟩
    · exact Or.inl (h1.trans h2)
    · exact Or.inl (by omega)
  · rcases h2 with h2 | ⟨h2e, h2t⟩
    · exact Or.inl (by omega)
    · exact Or.inr ⟨by omega, le_trans h1t h2t⟩

theorem scoreLE_total : ∀ a b : StoredScore, (scoreLE a b || scoreLE b a) = true := by
  intro a b
  simp only [scoreLE, Bool.or_eq_true, Bool.and_eq_true, decide_eq_true_eq,
    beq_iff_eq]
  rcases Nat.lt_trichotomy a.moves b.moves with h | h | h
  · exact Or.inl (Or.inl h)
  · rcases le_total a.time b.time with ht | ht
    · exact Or.inl (Or.inr ⟨h, ht⟩)
    · exact Or.inr (Or.inr ⟨h.symm, ht⟩)
  · exact Or.inr (Or.inl h)

/-- The list `FlagsofWorld.saveScore` leaves under the `highScores` key. -/
theorem saveScore_highScores_eq (store : LocalStore) (continent name : String)
    (moves : Nat) (time : String) (difficulty : String) (region : String)
    (playerCountry : String) :
    (FlagsofWorld.saveScore store continent name moves time difficulty region
        playerCountry) "highScores"
      = ((store "highScores"
          ++ [(⟨name, moves, time, difficulty, continent ++ " - " ++ region,
              playerCountry⟩ : StoredScore)]).mergeSort scoreLE).take 10 := by
  unfold FlagsofWorld.saveScore setItem
  rw [if_pos rfl]

/-- C8: after every local score submission — whatever the prior stored
contents — the persisted `highScores` list has at most ten entries and is
sorted ascending by moves with ties broken ascending by the time string. -/
theorem saveScore_top10_sorted (store : LocalStore) (continent name : String)
    (moves : Nat) (time : String) (difficulty : String) (region : String)
    (playerCountry : String) :
    ((FlagsofWorld.saveScore store continent name moves time difficulty region
        playerCountry) "highScores").length ≤ 10
    ∧ List.Sorted (fun a b => scoreLE a b = true)
        ((FlagsofWorld.saveScore store continent name moves time difficulty region
          playerCountry) "highScores") := by
  rw [saveScore_highScores_eq]
  constructor
  · rw [List.length_take]
    omega
  · have hs := List.sorted_mergeSort scoreLE_trans scoreLE_total
      (store "highScores"
        ++ [(⟨name, moves, time, difficulty, continent ++ " - " ++ region,
            playerCountry⟩ : StoredScore)])
    exact List.Pairwise.sublist (List.take_sublist _ _) hs

/-- C9 (amended): `FlagsofWorld.saveScore` writes only the flat `highScores`
key — not a continent-scoped key — while the per-continent leaderboard reads
`highScores_<continent>`, a key the save path never touches; hence saving a
score never changes any per-continent leaderboard view. -/
theorem saveScore_flat_key (store : LocalStore) (continent name : String)
    (moves : Nat) (time : String) (difficulty : String) (region : String)
    (playerCountry : String) :
    (∀ k : String, k ≠ "highScores" →
      (FlagsofWorld.saveScore store continent name moves time difficulty region
        playerCountry) k = store k)
    ∧ ∀ c : String,
      loadLocalScoresForContinent
        (FlagsofWorld.saveScore store continent name moves time difficulty region
          playerCountry) c
      = loadLocalScoresForContinent store c := by
  have hwrite : ∀ k : String, k ≠ "highScores" →
      (FlagsofWorld.saveScore store continent name moves time difficulty region
        playerCountry) k = store k := by
    intro k hk
    unfold FlagsofWorld.saveScore setItem
    rw [if_neg hk]
  refine ⟨hwrite, ?_⟩
  intro c
  unfold loadLocalScoresForContinent
  apply hwrite
  intro hEq
  have h1 : ("highScores_" ++ c).length = 11 + c.length := by
    rw [String.length_append]
    have h11 : ("highScores_" : String).length = 11 := rfl
    rw [h11]
  rw [hEq] at h1
  have h10 : ("highScores" : String).length = 10 := rfl
  rw [h10] at h1
  omega

/-- C9 witness: saving a score into an empty store leaves the key
`highScores_africa` empty and the africa leaderboard view unchanged. -/
theorem saveScore_flat_key_witness :
    (FlagsofWorld.saveScore emptyStore "africa" "Alice" 12 "01:00" "easy" "all"
        "Kenya") "highScores_africa" = emptyStore "highScores_africa"
    ∧ loadLocalScoresForContinent
        (FlagsofWorld.saveScore emptyStore "africa" "Alice" 12 "01:00" "easy" "all"
          "Kenya") "africa"
      = loadLocalScoresForContinent emptyStore "africa" :=
  ⟨(saveScore_flat_key emptyStore "africa" "Alice" 12 "01:00" "easy" "all"
      "Kenya").1 "highScores_africa" (by decide),
   (saveScore_flat_key emptyStore "africa" "Alice" 12 "01:00" "easy" "all"
      "Kenya").2 "africa"⟩

/-- C9 counterexample: after saving an africa score into an empty store, the
claimed key `scores_africa` still holds nothing, the per-continent leaderboard
for africa still reads an empty list, and the score sits under the flat
`highScores` key instead — refuting both the claimed key name and the claimed
write/read round trip. -/
theorem saveScore_key_mismatch_counterexample :
    (FlagsofWorld.saveScore emptyStore "africa" "Alice" 12 "01:00" "easy" "all"
        "Kenya") "scores_africa" = []
    ∧ loadLocalScoresForContinent
        (FlagsofWorld.saveScore emptyStore "africa" "Alice" 12 "01:00" "easy" "all"
          "Kenya") "africa" = []
    ∧ (FlagsofWorld.saveScore emptyStore "africa" "Alice" 12 "01:00" "easy" "all"
        "Kenya") "highScores"
      = [⟨"Alice", 12, "01:00", "easy", "africa - all", "Kenya"⟩] := by
  refine ⟨rfl, rfl, ?_⟩
  rw [saveScore_highScores_eq]
  have hempty : emptyStore "highScores" = [] := rfl
  rw [hempty]
  rw [List.nil_append, List.mergeSort_singleton]
  rfl

end FlagsGame
